import Mathlib

/-!
Verification of `art/classifiers/classifier.py`: the abstract classifier
contract of the adversarial-robustness toolbox, with its input-coercion
metaclass, construction-time validation, forward preprocessing pipeline
(label formatting, defence chain, standardisation), postprocessing pipeline,
backward (gradient) pipeline, and the default generator-driven fit loop.

Numpy scalars are modelled as rationals; an array carries its dtype tag and
its data as a list of rows.  Defences are records holding their applicability
flags and their transform functions.  Pipeline loops are instrumented to also
return the list of defences they invoked, so that ordering and filtering
properties can be stated.
-/

namespace ART

/-- Numpy dtypes relevant to the module: the unsigned integer dtypes are
exactly the ones `_apply_preprocessing_standardisation` rejects. -/
inductive DType where
  | float32 | float64
  | int8 | int16 | int32 | int64
  | uint8 | uint16 | uint32 | uint64
deriving DecidableEq

/-- `x.dtype in [np.uint8, np.uint16, np.uint32, np.uint64]`. -/
def DType.isUnsignedInt : DType → Bool
  | .uint8 | .uint16 | .uint32 | .uint64 => true
  | _ => false

def DType.isSignedInt : DType → Bool
  | .int8 | .int16 | .int32 | .int64 => true
  | _ => false

/-- Truncation toward zero, numpy's rounding when casting to an integer
dtype. -/
def ratTrunc (q : ℚ) : ℚ := ((q.num.tdiv (q.den : ℤ) : ℤ) : ℚ)

/-- `np.asarray(v, dtype=dt)` on a scalar: integer dtypes truncate toward
zero, floating dtypes keep the value (floats are modelled exactly as
rationals). -/
def castTo (dt : DType) (q : ℚ) : ℚ :=
  if dt.isSignedInt || dt.isUnsignedInt then ratTrunc q else q

/-- A numpy 2-D array: a dtype tag plus rational entries, row major. -/
structure NDArr where
  dtype : DType
  data : List (List ℚ)
deriving DecidableEq

/-- Label arrays as accepted by the classifier API: index-encoded
`(nb_samples,)` or one-hot `(nb_samples, nb_classes)`. -/
inductive LabelArr where
  | indices : List ℕ → LabelArr
  | onehot : List (List ℚ) → LabelArr
deriving DecidableEq

def oneHotRow (c i : ℕ) : List ℚ :=
  (List.range c).map (fun j => if j = i then 1 else 0)

/-- Modelled from the spec: `art.utils.check_and_transform_label_format`
(imported by the module but not part of this repository slice) normalizes a
label array to the canonical one-hot form given the classifier's class
count; it handles already-one-hot input idempotently and passes absent
labels through. -/
def check_and_transform_label_format (y : Option LabelArr) (c : ℕ) :
    Option LabelArr :=
  match y with
  | none => none
  | some (.indices l) => some (.onehot (l.map fun i => oneHotRow c i))
  | some (.onehot m) => some (.onehot m)

/-- A preprocessing defence: its two applicability flags, its forward
transform `__call__(x, y) -> (x', y')`, and its backward transform
`estimate_gradient(x, gradients) -> gradients'`.  `name` is an identifier
distinguishing defence instances in invocation traces. -/
structure Preprocessor where
  name : ℕ
  apply_fit : Bool
  apply_predict : Bool
  forward : NDArr → Option LabelArr → NDArr × Option LabelArr
  estimate_gradient : NDArr → NDArr → NDArr

/-- A postprocessing defence: applicability flags plus its
`__call__(preds) -> preds'`.  Because a Python defence may mutate the array
it is handed, `run` returns both the contents of its argument after the
call (first component) and the contents of the array it returns (second
component). -/
structure Postprocessor where
  name : ℕ
  apply_fit : Bool
  apply_predict : Bool
  run : List (List ℚ) → List (List ℚ) × List (List ℚ)

/-- The Python exceptions the module can raise. -/
inductive PyError where
  | valueError | typeError | notImplementedError | indexError
deriving DecidableEq

/-- The state a successfully constructed `Classifier` holds (the
`preprocessing` tuple has been unpacked into its two components, which
`__init__` validated to exist). -/
structure ClassifierState where
  clip_values : Option (List (List ℚ))
  preprocessing_defences : Option (List Preprocessor)
  postprocessing_defences : Option (List Postprocessor)
  preprocessing : Option (ℚ × ℚ)
  nb_classes : ℕ

/-- The `preprocessing_defences` constructor argument:
`Union[Preprocessor, List[Preprocessor], None]`. -/
inductive PreprocessorArg where
  | absent : PreprocessorArg
  | single : Preprocessor → PreprocessorArg
  | many : List Preprocessor → PreprocessorArg

/-- The `postprocessing_defences` constructor argument. -/
inductive PostprocessorArg where
  | absent : PostprocessorArg
  | single : Postprocessor → PostprocessorArg
  | many : List Postprocessor → PostprocessorArg

/-- `np.array(a >= b).any()` for 1-D operands, with numpy broadcasting
between a scalar (length-1) and an array; incompatible shapes raise
`ValueError`. -/
def npGeAny (a b : List ℚ) : Except PyError Bool :=
  if a.length = b.length then
    .ok ((a.zip b).any fun p => decide (p.2 ≤ p.1))
  else if a.length = 1 then
    .ok (b.any fun w => decide (w ≤ a.headD 0))
  else if b.length = 1 then
    .ok (a.any fun v => decide (b.headD 0 ≤ v))
  else .error .valueError

/-- The defence-normalisation part of `Classifier.__init__`: a single
defence is wrapped in a list, a list or `None` is stored as given. -/
def wrapPre : PreprocessorArg → Option (List Preprocessor)
  | .absent => none
  | .single d => some [d]
  | .many ds => some ds

def wrapPost : PostprocessorArg → Option (List Postprocessor)
  | .absent => none
  | .single d => some [d]
  | .many ds => some ds

/-- The tail of `Classifier.__init__` after the `clip_values` checks:
defence wrapping, `preprocessing` arity check, and storing the state. -/
def initAfterClip (clip_values : Option (List (List ℚ)))
    (preprocessing_defences : PreprocessorArg)
    (postprocessing_defences : PostprocessorArg)
    (preprocessing : Option (List ℚ)) (nb : ℕ) :
    Except PyError ClassifierState :=
  match preprocessing with
  | some p =>
    if p.length ≠ 2 then .error .valueError
    else
      .ok { clip_values := clip_values
            preprocessing_defences := wrapPre preprocessing_defences
            postprocessing_defences := wrapPost postprocessing_defences
            preprocessing := some (p.getD 0 0, p.getD 1 0)
            nb_classes := nb }
  | none =>
    .ok { clip_values := clip_values
          preprocessing_defences := wrapPre preprocessing_defences
          postprocessing_defences := wrapPost postprocessing_defences
          preprocessing := none
          nb_classes := nb }

/-- `Classifier.__init__`: validates `clip_values` (arity 2, then
`np.array(clip_values[0] >= clip_values[1]).any()` must be false), wraps
bare defences into lists, validates the `preprocessing` tuple (arity 2),
and stores the configuration.  `nb` stands in for the concrete subclass's
`nb_classes()`. -/
def Classifier.init (clip_values : Option (List (List ℚ)))
    (preprocessing_defences : PreprocessorArg)
    (postprocessing_defences : PostprocessorArg)
    (preprocessing : Option (List ℚ)) (nb : ℕ) :
    Except PyError ClassifierState :=
  match clip_values with
  | some l =>
    if l.length ≠ 2 then .error .valueError
    else
      match npGeAny (l.getD 0 []) (l.getD 1 []) with
      | .error e => .error e
      | .ok true => .error .valueError
      | .ok false =>
        initAfterClip clip_values preprocessing_defences
          postprocessing_defences preprocessing nb
  | none =>
    initAfterClip clip_values preprocessing_defences
      postprocessing_defences preprocessing nb

/-- `True` on `Except.ok`. -/
def exOk {ε α : Type} : Except ε α → Bool
  | .ok _ => true
  | .error _ => false

/-- Spec-side validity of a `clip_values` argument: absent, or of arity 2
with min strictly below max everywhere (under broadcasting). -/
def clipValuesOk (c : Option (List (List ℚ))) : Bool :=
  match c with
  | none => true
  | some l =>
    decide (l.length = 2) &&
      (match npGeAny (l.getD 0 []) (l.getD 1 []) with
       | .ok false => true
       | _ => false)

/-- Spec-side validity of a `preprocessing` argument: absent or of arity 2. -/
def preprocessingArgOk (p : Option (List ℚ)) : Bool :=
  match p with
  | none => true
  | some l => decide (l.length = 2)

/-! ## Forward preprocessing pipeline -/

/-- The loop body of `_apply_preprocessing_defences`, instrumented: besides
the transformed `(x, y)` it returns the defences it invoked, in invocation
order. -/
def applyDefencesLoop (ds : List Preprocessor) (fit : Bool) (x : NDArr)
    (y : Option LabelArr) : (NDArr × Option LabelArr) × List Preprocessor :=
  match ds with
  | [] => ((x, y), [])
  | d :: rest =>
    if (if fit then d.apply_fit else d.apply_predict) then
      let xy := d.forward x y
      let r := applyDefencesLoop rest fit xy.1 xy.2
      (r.1, d :: r.2)
    else applyDefencesLoop rest fit x y

/-- `Classifier._apply_preprocessing_defences`: applies each preprocessing
defence in list order, gated on `apply_fit`/`apply_predict` according to
`fit`; also returns the invocation trace. -/
def ClassifierState.apply_preprocessing_defences (cls : ClassifierState)
    (x : NDArr) (y : Option LabelArr) (fit : Bool) :
    (NDArr × Option LabelArr) × List Preprocessor :=
  match cls.preprocessing_defences with
  | none => ((x, y), [])
  | some ds => applyDefencesLoop ds fit x y

/-- `Classifier._apply_preprocessing_standardisation`: rejects unsigned
integer dtypes with a `TypeError` before anything else; then, if a
`(sub, div)` pair is configured, casts both to `x`'s dtype and returns
`(x - sub) / div` elementwise, else returns `x` unchanged. -/
def ClassifierState.apply_preprocessing_standardisation
    (cls : ClassifierState) (x : NDArr) : Except PyError NDArr :=
  if x.dtype.isUnsignedInt then .error .typeError
  else
    match cls.preprocessing with
    | some p =>
      let sub := castTo x.dtype p.1
      let div := castTo x.dtype p.2
      .ok ⟨x.dtype, x.data.map fun row => row.map fun v => (v - sub) / div⟩
    | none => .ok x

/-- `Classifier._apply_preprocessing`: label formatting, then the defence
chain in the given mode, then standardisation. -/
def ClassifierState.apply_preprocessing (cls : ClassifierState) (x : NDArr)
    (y : Option LabelArr) (fit : Bool) :
    Except PyError (NDArr × Option LabelArr) :=
  let y1 := check_and_transform_label_format y cls.nb_classes
  let r := cls.apply_preprocessing_defences x y1 fit
  match cls.apply_preprocessing_standardisation r.1.1 with
  | .error e => .error e
  | .ok xs => .ok (xs, r.1.2)

/-! ## Postprocessing pipeline

To make the no-mutation guarantee of `_apply_postprocessing` expressible,
arrays live in a store (a list of array contents, indexed by position);
`preds.copy()` allocates a fresh cell, and a defence call writes the
possibly-mutated contents back to the cell it was handed and allocates a
cell for its result. -/

/-- The loop of `_apply_postprocessing` over the defence list, acting on the
store: `cur` is the index holding the current `post_preds`.  Returns the
final store, the index of the final result, and the invocation trace. -/
def applyPostLoop (ds : List Postprocessor) (fit : Bool)
    (store : List (List (List ℚ))) (cur : ℕ) :
    (List (List (List ℚ)) × ℕ) × List Postprocessor :=
  match ds with
  | [] => ((store, cur), [])
  | d :: rest =>
    if (if fit then d.apply_fit else d.apply_predict) then
      let r := d.run (store.getD cur [])
      let store1 := store.set cur r.1 ++ [r.2]
      let rec1 := applyPostLoop rest fit store1 store.length
      (rec1.1, d :: rec1.2)
    else applyPostLoop rest fit store cur

/-- `Classifier._apply_postprocessing`: first `post_preds = preds.copy()`
(a fresh cell holding the same contents), then each postprocessing defence
in list order gated on the mode flag.  Returns the final store, the index
of the postprocessed output, and the invocation trace. -/
def ClassifierState.apply_postprocessing (cls : ClassifierState)
    (store : List (List (List ℚ))) (preds : ℕ) (fit : Bool) :
    (List (List (List ℚ)) × ℕ) × List Postprocessor :=
  let store1 := store ++ [store.getD preds []]
  match cls.postprocessing_defences with
  | none => ((store1, store.length), [])
  | some ds => applyPostLoop ds fit store1 store.length

/-! ## Backward (gradient) pipeline -/

/-- The loop body of `_apply_preprocessing_defences_gradient`: the source
iterates over `self.preprocessing_defences[::-1]`; this function is handed
that already-reversed list.  Instrumented with the invocation trace. -/
def applyGradLoop (ds : List Preprocessor) (fit : Bool) (x g : NDArr) :
    NDArr × List Preprocessor :=
  match ds with
  | [] => (g, [])
  | d :: rest =>
    if (if fit then d.apply_fit else d.apply_predict) then
      let g1 := d.estimate_gradient x g
      let r := applyGradLoop rest fit x g1
      (r.1, d :: r.2)
    else applyGradLoop rest fit x g

/-- `ClassifierGradients._apply_preprocessing_defences_gradient`: runs each
defence's `estimate_gradient` over the reversed defence list, gated on the
mode flag (the source's `fit` parameter defaults to `False`). -/
def ClassifierState.apply_preprocessing_defences_gradient
    (cls : ClassifierState) (x g : NDArr) (fit : Bool := false) :
    NDArr × List Preprocessor :=
  match cls.preprocessing_defences with
  | none => (g, [])
  | some ds => applyGradLoop ds.reverse fit x g

/-- `ClassifierGradients._apply_preprocessing_normalization_gradient`:
divides the gradients by the `div` of the standardisation pair (cast to the
gradients' dtype), when one is configured. -/
def ClassifierState.apply_preprocessing_normalization_gradient
    (cls : ClassifierState) (g : NDArr) : NDArr :=
  match cls.preprocessing with
  | some p =>
    let div := castTo g.dtype p.2
    ⟨g.dtype, g.data.map fun row => row.map fun v => v / div⟩
  | none => g

/-- `ClassifierGradients._apply_preprocessing_gradient`: the standardisation
backward step, then the defence backward chain, which is called without a
`fit` argument and therefore runs with its default `fit=False`. -/
def ClassifierState.apply_preprocessing_gradient (cls : ClassifierState)
    (x g : NDArr) : NDArr × List Preprocessor :=
  let g1 := cls.apply_preprocessing_normalization_gradient g
  cls.apply_preprocessing_defences_gradient x g1

/-! ## Input-coercion metaclass -/

/-- A Python value at the coercion boundary: a numpy array, a plain nested
sequence, or `None`. -/
inductive PyVal where
  | arr : NDArr → PyVal
  | seq : List (List ℚ) → PyVal
  | pynone : PyVal
deriving DecidableEq

/-- `isinstance(v, np.ndarray)`. -/
def isNdarray : PyVal → Bool
  | .arr _ => true
  | _ => false

/-- `np.array(v)` at the boundary: a nested numeric sequence becomes a
float64 array; an array stays itself (the wrapper never calls this on one);
`None` is modelled as an empty array for totality (no claim exercises it). -/
def np_array : PyVal → NDArr
  | .arr a => a
  | .seq s => ⟨.float64, s⟩
  | .pynone => ⟨.float64, []⟩

/-- Coerce one positional/keyword value the way `replacement_function`
does: leave arrays alone, otherwise `np.array` it. -/
def coerceVal (v : PyVal) : PyVal :=
  if isNdarray v then v else .arr (np_array v)

/-- The `y`-coercion half of `replacement_function`: coerce the keyword `y`
when present and not `None`, else (for label-taking methods) coerce
`args[1]`, then call the wrapped method. -/
def coerce_y_step {R : Type} (has_y : Bool)
    (f : List PyVal → Option PyVal → Option PyVal → R)
    (args1 : List PyVal) (kx1 ky : Option PyVal) : Except PyError R :=
  match ky with
  | some v =>
    if v = .pynone then .ok (f args1 kx1 (some v))
    else .ok (f args1 kx1 (some (coerceVal v)))
  | none =>
    if has_y then
      match args1.get? 1 with
      | none => .error .indexError
      | some b => .ok (f (args1.set 1 (coerceVal b)) kx1 none)
    else .ok (f args1 kx1 none)

/-- The body of `input_filter.make_replacement`'s `replacement_function`:
coerces the `x` argument (keyword if present, else `args[0]`) and, when the
wrapped method takes labels, the `y` argument (keyword if present and not
`None`, else `args[1]`) to arrays, then calls the wrapped method.  Missing
positional arguments surface as `IndexError`, as in Python. -/
def replacement_function {R : Type} (has_y : Bool)
    (f : List PyVal → Option PyVal → Option PyVal → R)
    (args : List PyVal) (kx ky : Option PyVal) : Except PyError R :=
  match kx with
  | some v => coerce_y_step has_y f args (some (coerceVal v)) ky
  | none =>
    match args with
    | [] => .error .indexError
    | a :: rest => coerce_y_step has_y f (coerceVal a :: rest) none ky

/-- The method names `input_filter` wraps without a label argument. -/
def replacement_list_no_y : List String :=
  ["predict", "get_activations", "class_gradient"]

/-- The method names `input_filter` wraps with a label argument. -/
def replacement_list_has_y : List String := ["fit", "loss_gradient"]

/-- The designated operation set of the coercion contract. -/
def designatedSet : List String :=
  replacement_list_no_y ++ replacement_list_has_y

/-- `input_filter.__init__`'s effect on one method: a method in one of the
two replacement lists is wrapped by `replacement_function` with the
corresponding `has_y`; other methods are untouched. -/
def input_filter_wrap {R : Type} (nm : String)
    (f : List PyVal → Option PyVal → Option PyVal → R)
    (args : List PyVal) (kx ky : Option PyVal) :
    Option (Except PyError R) :=
  if nm ∈ replacement_list_no_y then
    some (replacement_function false f args kx ky)
  else if nm ∈ replacement_list_has_y then
    some (replacement_function true f args kx ky)
  else none

/-! ## Neural-network capability -/

/-- One invocation of the single-batch `fit` made by `fit_generator`. -/
structure FitCall where
  x : NDArr
  y : Option LabelArr
  nb_epochs : ℕ
  batch_size : ℕ
deriving DecidableEq

/-- The `DataGenerator` collaborator: `size`, `batch_size`, and a stateful
`get_batch` over generator states `σ`. -/
structure DataGenerator (σ : Type) where
  size : ℕ
  batch_size : ℕ
  get_batch : σ → (NDArr × Option LabelArr) × σ

/-- The inner loop of `fit_generator`: `k` remaining iterations, each
pulling a batch, preprocessing it in fit mode, and recording the
single-batch `fit` call. -/
def fitGenInner {σ : Type} (cls : ClassifierState) (gen : DataGenerator σ)
    (k : ℕ) (s : σ) : Except PyError (List FitCall × σ) :=
  match k with
  | 0 => .ok ([], s)
  | k' + 1 =>
    let b := gen.get_batch s
    match cls.apply_preprocessing b.1.1 b.1.2 true with
    | .error e => .error e
    | .ok xy =>
      match fitGenInner cls gen k' b.2 with
      | .error e => .error e
      | .ok (tr, s1) =>
        .ok (⟨xy.1, xy.2, 1, gen.batch_size⟩ :: tr, s1)

/-- The outer loop of `fit_generator` over epochs. -/
def fitGenOuter {σ : Type} (cls : ClassifierState) (gen : DataGenerator σ)
    (epochs k : ℕ) (s : σ) : Except PyError (List FitCall × σ) :=
  match epochs with
  | 0 => .ok ([], s)
  | e + 1 =>
    match fitGenInner cls gen k s with
    | .error err => .error err
    | .ok (tr, s1) =>
      match fitGenOuter cls gen e k s1 with
      | .error err => .error err
      | .ok (tr1, s2) => .ok (tr ++ tr1, s2)

/-- `ClassifierNeuralNetwork.fit_generator`: `nb_epochs` epochs of
`int(generator.size / generator.batch_size)` iterations, each pulling one
batch, preprocessing it with `fit=True`, and calling `fit` with
`nb_epochs=1` and the generator's batch size.  Returns the trace of `fit`
calls and the final generator state. -/
def fit_generator {σ : Type} (cls : ClassifierState)
    (gen : DataGenerator σ) (s0 : σ) (nb_epochs : ℕ) :
    Except PyError (List FitCall × σ) :=
  fitGenOuter cls gen nb_epochs (gen.size / gen.batch_size) s0

/-- The generator state after `k` calls to `get_batch`. -/
def genStateAfter {σ : Type} (gen : DataGenerator σ) (s : σ) : ℕ → σ
  | 0 => s
  | k + 1 => (gen.get_batch (genStateAfter gen s k)).2

/-- The first `k` batches a generator yields from state `s`. -/
def batchesFrom {σ : Type} (gen : DataGenerator σ) (s : σ) (k : ℕ) :
    List (NDArr × Option LabelArr) :=
  (List.range k).map fun i => (gen.get_batch (genStateAfter gen s i)).1

/-- `ClassifierNeuralNetwork.layer_names`: the base contract's property body
is a bare `raise NotImplementedError`. -/
def ClassifierNeuralNetwork.layer_names : Except PyError (List String) :=
  .error .notImplementedError

/-! ## Concrete instances used by witnesses -/

/-- A defence passing data through unchanged, active in both modes. -/
def idDefence : Preprocessor :=
  ⟨0, true, true, fun x y => (x, y), fun _ g => g⟩

/-- A defence active only during fit. -/
def fitOnlyDefence : Preprocessor :=
  ⟨1, true, false, fun x y => (x, y), fun _ g => g⟩

/-- The classifier of the spec's standardisation scenario:
`clip_values=(0.0, 1.0)`, no defences, `preprocessing=(0.5, 0.5)`. -/
def clsScenario : ClassifierState :=
  { clip_values := some [[0], [1]]
    preprocessing_defences := none
    postprocessing_defences := none
    preprocessing := some (1/2, 1/2)
    nb_classes := 2 }

/-- A classifier with no standardisation configured. -/
def clsPlain : ClassifierState :=
  { clip_values := none
    preprocessing_defences := none
    postprocessing_defences := none
    preprocessing := none
    nb_classes := 2 }

/-- The scenario input `x = [[1.0, 0.0]]`. -/
def xScenario : NDArr := ⟨.float32, [[1, 0]]⟩

/-- An unsigned-integer input. -/
def xUnsigned : NDArr := ⟨.uint8, [[3, 4]]⟩

/-- A postprocessing defence that mutates the array it is handed (adding 1
to every entry in place) and returns a fresh constant array. -/
def mutatingPostDefence : Postprocessor :=
  ⟨0, false, true, fun d => (d.map fun row => row.map fun v => v + 1, [[5]])⟩

/-- A classifier carrying the mutating postprocessing defence. -/
def clsPost : ClassifierState :=
  { clsPlain with postprocessing_defences := some [mutatingPostDefence] }

/-- A one-cell store holding the caller's prediction array. -/
def storePost : List (List (List ℚ)) := [[[1, 2]]]

/-- A generator with 5 samples in batches of 2, yielding a constant batch
and counting its `get_batch` calls in its state. -/
def genCounting : DataGenerator ℕ :=
  ⟨5, 2, fun s => ((⟨.float32, [[1]]⟩, none), s + 1)⟩

/-- The `fit` calls `fit_generator` makes on `genCounting` over 2 epochs:
2 epochs of `floor(5 / 2) = 2` single-batch fits. -/
def trCounting : List FitCall :=
  List.replicate 4 ⟨⟨.float32, [[1]]⟩, none, 1, 2⟩

/-! ## Invocation-trace lemmas for the defence pipelines -/

theorem applyDefencesLoop_trace (ds : List Preprocessor) (fit : Bool) :
    ∀ x y, (applyDefencesLoop ds fit x y).2
      = ds.filter (fun d => if fit then d.apply_fit else d.apply_predict) := by
  induction ds with
  | nil => intro x y; rfl
  | cons d rest ih =>
    intro x y
    by_cases h : (if fit then d.apply_fit else d.apply_predict) = true
    · simp [applyDefencesLoop, h, List.filter_cons, ih]
    · simp [applyDefencesLoop, h, List.filter_cons, ih]

theorem applyGradLoop_trace (ds : List Preprocessor) (fit : Bool) :
    ∀ x g, (applyGradLoop ds fit x g).2
      = ds.filter (fun d => if fit then d.apply_fit else d.apply_predict) := by
  induction ds with
  | nil => intro x g; rfl
  | cons d rest ih =>
    intro x g
    by_cases h : (if fit then d.apply_fit else d.apply_predict) = true
    · simp [applyGradLoop, h, List.filter_cons, ih]
    · simp [applyGradLoop, h, List.filter_cons, ih]

theorem all_filter_self {α : Type} (p : α → Bool) (l : List α) :
    (l.filter p).all p = true := by
  simp only [List.all_eq_true]
  intro a ha
  exact (List.mem_filter.mp ha).2

/-- C1: for a classifier whose preprocessing defences all carry a
gradient-estimation step (as every `Preprocessor` does), the backward
pipeline `_apply_preprocessing_gradient` (which runs
`_apply_preprocessing_defences_gradient` in its default predict mode)
invokes `estimate_gradient` on exactly the defences the forward pipeline
`_apply_preprocessing_defences` applies in the same mode, in exactly the
reverse order. -/
theorem gradient_pipeline_reverses_forward_defence_order
    (cls : ClassifierState) (x g x1 : NDArr) (y : Option LabelArr) :
    (cls.apply_preprocessing_gradient x g).2
      = ((cls.apply_preprocessing_defences x1 y false).2).reverse := by
  cases hd : cls.preprocessing_defences with
  | none =>
    simp [ClassifierState.apply_preprocessing_gradient,
      ClassifierState.apply_preprocessing_defences_gradient,
      ClassifierState.apply_preprocessing_defences, hd]
  | some ds =>
    simp [ClassifierState.apply_preprocessing_gradient,
      ClassifierState.apply_preprocessing_defences_gradient,
      ClassifierState.apply_preprocessing_defences, hd,
      applyGradLoop_trace, applyDefencesLoop_trace, List.filter_reverse]

/-- C10: the backward entry point `_apply_preprocessing_gradient` calls the
defence gradient chain without a `fit` argument, so it always filters the
(reversed) defence list by `apply_predict`; consequently every defence it
invokes has `apply_predict` set, and one with `apply_predict = false` is
never invoked through this entry point. -/
theorem gradient_entry_point_filters_by_apply_predict
    (cls : ClassifierState) (x g : NDArr) :
    (cls.apply_preprocessing_gradient x g).2
      = ((cls.preprocessing_defences.getD []).reverse.filter
          fun d => d.apply_predict)
    ∧ ((cls.apply_preprocessing_gradient x g).2).all
        (fun d => d.apply_predict) = true := by
  have h1 : (cls.apply_preprocessing_gradient x g).2
      = ((cls.preprocessing_defences.getD []).reverse.filter
          fun d => d.apply_predict) := by
    cases hd : cls.preprocessing_defences with
    | none =>
      simp [ClassifierState.apply_preprocessing_gradient,
        ClassifierState.apply_preprocessing_defences_gradient, hd]
    | some ds =>
      simp [ClassifierState.apply_preprocessing_gradient,
        ClassifierState.apply_preprocessing_defences_gradient, hd,
        applyGradLoop_trace]
  exact ⟨h1, by rw [h1]; exact all_filter_self _ _⟩

/-- C2: with a `(sub, div)` standardisation pair configured, no
preprocessing defences, and a signed-numeric input, the forward pipeline
returns `(x - sub) / div` elementwise with `sub` and `div` cast to `x`'s
element type. -/
theorem forward_preprocessing_standardises (cls : ClassifierState)
    (x : NDArr) (y : Option LabelArr) (fit : Bool) (sub div : ℚ)
    (hdef : cls.preprocessing_defences = none)
    (hpre : cls.preprocessing = some (sub, div))
    (hdt : x.dtype.isUnsignedInt = false) :
    cls.apply_preprocessing x y fit
      = .ok (⟨x.dtype, x.data.map fun row => row.map fun v =>
                (v - castTo x.dtype sub) / castTo x.dtype div⟩,
             check_and_transform_label_format y cls.nb_classes) := by
  simp [ClassifierState.apply_preprocessing,
    ClassifierState.apply_preprocessing_defences,
    ClassifierState.apply_preprocessing_standardisation, hdef, hpre, hdt]

/-- C2 witness: the spec scenario `preprocessing=(0.5, 0.5)`,
`x=[[1.0, 0.0]]` gives `[[1.0, -1.0]]`. -/
theorem forward_preprocessing_standardises_witness :
    clsScenario.preprocessing_defences = none
    ∧ clsScenario.preprocessing = some (1/2, 1/2)
    ∧ xScenario.dtype.isUnsignedInt = false
    ∧ clsScenario.apply_preprocessing xScenario none false
        = .ok (⟨.float32, [[1, -1]]⟩, none) :=
  ⟨rfl, rfl, rfl,
    (forward_preprocessing_standardises clsScenario xScenario none false
      (1/2) (1/2) rfl rfl rfl).trans
      (by norm_num [castTo, xScenario, DType.isSignedInt, DType.isUnsignedInt,
        check_and_transform_label_format])⟩

/-- C3: an unsigned-integer input under a configured standardisation pair
makes `_apply_preprocessing_standardisation` raise `TypeError`; the error
is raised by the dtype check that precedes the subtraction and division,
so it does not depend on the configured pair or on `x`'s data. -/
theorem unsigned_input_with_standardisation_raises_type_error
    (cls : ClassifierState) (x : NDArr) (p : ℚ × ℚ)
    (hpre : cls.preprocessing = some p)
    (hdt : x.dtype.isUnsignedInt = true) :
    cls.apply_preprocessing_standardisation x = .error .typeError := by
  simp [ClassifierState.apply_preprocessing_standardisation, hdt]

/-- C3 witness: `uint8` data under `preprocessing=(0.5, 0.5)`. -/
theorem unsigned_input_with_standardisation_raises_type_error_witness :
    clsScenario.preprocessing = some (1/2, 1/2)
    ∧ xUnsigned.dtype.isUnsignedInt = true
    ∧ clsScenario.apply_preprocessing_standardisation xUnsigned
        = .error .typeError :=
  ⟨rfl, rfl,
    unsigned_input_with_standardisation_raises_type_error clsScenario
      xUnsigned (1/2, 1/2) rfl rfl⟩

/-- C9: the unsigned-dtype check in
`_apply_preprocessing_standardisation` precedes the test whether a
standardisation pair is configured, so an unsigned-integer input raises
`TypeError` even when `preprocessing` is absent. -/
theorem unsigned_dtype_check_is_unconditional (cls : ClassifierState)
    (x : NDArr) (hpre : cls.preprocessing = none)
    (hdt : x.dtype.isUnsignedInt = true) :
    cls.apply_preprocessing_standardisation x = .error .typeError := by
  simp [ClassifierState.apply_preprocessing_standardisation, hdt]

/-- C9 witness: `uint8` data with no standardisation configured. -/
theorem unsigned_dtype_check_is_unconditional_witness :
    clsPlain.preprocessing = none
    ∧ xUnsigned.dtype.isUnsignedInt = true
    ∧ clsPlain.apply_preprocessing_standardisation xUnsigned
        = .error .typeError :=
  ⟨rfl, rfl,
    unsigned_dtype_check_is_unconditional clsPlain xUnsigned rfl rfl⟩

/-! ## Construction-time validation -/

theorem npGeAny_error_eq (a b : List ℚ) (e : PyError)
    (h : npGeAny a b = .error e) : e = .valueError := by
  unfold npGeAny at h
  split_ifs at h <;> simp_all

/-- C4: construction raises a configuration error (`ValueError`) exactly
when the clip-bounds tuple has arity ≠ 2, or some clip min is ≥ the
corresponding max, or the standardisation tuple has arity ≠ 2; with valid
clip bounds (min < max everywhere) and arity-2 tuples it succeeds. -/
theorem construction_validates_configuration
    (clip : Option (List (List ℚ))) (pd : PreprocessorArg)
    (qd : PostprocessorArg) (pre : Option (List ℚ)) (nb : ℕ) :
    exOk (Classifier.init clip pd qd pre nb)
      = (clipValuesOk clip && preprocessingArgOk pre)
    ∧ ((clipValuesOk clip && preprocessingArgOk pre) = false →
        Classifier.init clip pd qd pre nb = .error .valueError) := by
  have hrest : ∀ c : Option (List (List ℚ)),
      exOk (initAfterClip c pd qd pre nb) = preprocessingArgOk pre
      ∧ (preprocessingArgOk pre = false →
          initAfterClip c pd qd pre nb = .error .valueError) := by
    intro c
    rcases pre with _ | p
    · simp [initAfterClip, preprocessingArgOk, exOk]
    · by_cases hp : p.length = 2
      · simp [initAfterClip, preprocessingArgOk, exOk, hp]
      · simp [initAfterClip, preprocessingArgOk, exOk, hp]
  rcases clip with _ | l
  · simpa [Classifier.init, clipValuesOk] using hrest none
  · simp only [Classifier.init, clipValuesOk]
    by_cases hl : l.length = 2
    · rw [if_neg (fun hc => hc hl)]
      generalize hG : npGeAny (l.getD 0 []) (l.getD 1 []) = G
      rcases G with e | b
      · have he := npGeAny_error_eq _ _ _ hG
        subst he
        simp [exOk, hl]
      · cases b
        · simpa [exOk, hl] using hrest (some l)
        · simp [exOk, hl]
    · rw [if_pos hl]
      simp [exOk, hl]

/-- C4 witness: clip bounds with min ≥ max are rejected with `ValueError`. -/
theorem construction_validates_configuration_witness :
    exOk (Classifier.init (some [[1], [0]]) .absent .absent none 2)
      = (clipValuesOk (some [[1], [0]]) && preprocessingArgOk none)
    ∧ ((clipValuesOk (some [[1], [0]]) && preprocessingArgOk none) = false)
    ∧ Classifier.init (some [[1], [0]]) .absent .absent none 2
        = .error .valueError :=
  ⟨(construction_validates_configuration (some [[1], [0]]) .absent .absent
      none 2).1,
   by decide,
   (construction_validates_configuration (some [[1], [0]]) .absent .absent
      none 2).2 (by decide)⟩

/-! ## Input coercion at the designated entry points -/

theorem wrap_of_no_y {R : Type} (nm : String)
    (h : nm ∈ replacement_list_no_y)
    (f : List PyVal → Option PyVal → Option PyVal → R)
    (args : List PyVal) (kx ky : Option PyVal) :
    input_filter_wrap nm f args kx ky
      = some (replacement_function false f args kx ky) := by
  have h1 : nm = "predict" ∨ nm = "get_activations" ∨ nm = "class_gradient" := by
    simpa [replacement_list_no_y] using h
  rcases h1 with rfl | rfl | rfl <;>
    · unfold input_filter_wrap
      rw [if_pos (by decide)]

theorem wrap_of_has_y {R : Type} (nm : String)
    (h : nm ∈ replacement_list_has_y)
    (f : List PyVal → Option PyVal → Option PyVal → R)
    (args : List PyVal) (kx ky : Option PyVal) :
    input_filter_wrap nm f args kx ky
      = some (replacement_function true f args kx ky) := by
  have h1 : nm = "fit" ∨ nm = "loss_gradient" := by
    simpa [replacement_list_has_y] using h
  rcases h1 with rfl | rfl <;>
    · unfold input_filter_wrap
      rw [if_neg (by decide), if_pos (by decide)]

theorem repl_x_positional {R : Type} (b : Bool)
    (f : List PyVal → Option PyVal → Option PyVal → R)
    (s : List (List ℚ)) (rest : List PyVal) (ky : Option PyVal) :
    replacement_function b f (.seq s :: rest) none ky
      = replacement_function b f (.arr (np_array (.seq s)) :: rest) none ky :=
  rfl

theorem repl_x_keyword {R : Type} (b : Bool)
    (f : List PyVal → Option PyVal → Option PyVal → R)
    (s : List (List ℚ)) (args : List PyVal) (ky : Option PyVal) :
    replacement_function b f args (some (.seq s)) ky
      = replacement_function b f args (some (.arr (np_array (.seq s)))) ky :=
  rfl

theorem repl_y_keyword {R : Type} (b : Bool)
    (f : List PyVal → Option PyVal → Option PyVal → R)
    (t : List (List ℚ)) (args : List PyVal) (kx : Option PyVal) :
    replacement_function b f args kx (some (.seq t))
      = replacement_function b f args kx (some (.arr (np_array (.seq t)))) := by
  rcases kx with _ | v
  · rcases args with _ | ⟨a, rest⟩ <;> rfl
  · rfl

theorem repl_y_positional {R : Type}
    (f : List PyVal → Option PyVal → Option PyVal → R)
    (t : List (List ℚ)) (x0 : PyVal) (rest : List PyVal) :
    replacement_function true f (x0 :: .seq t :: rest) none none
      = replacement_function true f
          (x0 :: .arr (np_array (.seq t)) :: rest) none none :=
  rfl

theorem repl_success_positional {R : Type} (b : Bool)
    (f : List PyVal → Option PyVal → Option PyVal → R)
    (s : List (List ℚ)) (ya : NDArr) (rest : List PyVal) :
    replacement_function b f (.seq s :: .arr ya :: rest) none none
      = .ok (f (.arr (np_array (.seq s)) :: .arr ya :: rest) none none) := by
  cases b <;> rfl

theorem repl_success_keyword {R : Type} (b : Bool)
    (f : List PyVal → Option PyVal → Option PyVal → R)
    (s : List (List ℚ)) (ya : NDArr) :
    replacement_function b f [] (some (.seq s)) (some (.arr ya))
      = .ok (f [] (some (.arr (np_array (.seq s)))) (some (.arr ya))) := by
  cases b <;> rfl

/-- C5: every entry point in the designated set (`predict`, `fit`,
`get_activations`, `class_gradient`, `loss_gradient`) is wrapped by the
metaclass so that a primary input given as a plain nested sequence —
positionally or as the keyword `x` — and, where applicable, a label array
given as a sequence — positionally (for the label-taking methods) or as
the keyword `y` — yields the same call as the already-coerced array of the
same values, and such a call succeeds, invoking the wrapped method on the
coerced arguments. -/
theorem designated_entry_points_coerce_inputs {R : Type} (nm : String)
    (f : List PyVal → Option PyVal → Option PyVal → R)
    (s t : List (List ℚ)) (x0 : PyVal) (rest args : List PyVal)
    (kx ky : Option PyVal) (ya : NDArr)
    (hnm : nm ∈ designatedSet) :
    (input_filter_wrap nm f (.seq s :: rest) none ky
       = input_filter_wrap nm f (.arr (np_array (.seq s)) :: rest) none ky)
    ∧ (input_filter_wrap nm f args (some (.seq s)) ky
       = input_filter_wrap nm f args (some (.arr (np_array (.seq s)))) ky)
    ∧ (input_filter_wrap nm f args kx (some (.seq t))
       = input_filter_wrap nm f args kx (some (.arr (np_array (.seq t)))))
    ∧ (nm ∈ replacement_list_has_y →
       input_filter_wrap nm f (x0 :: .seq t :: rest) none none
         = input_filter_wrap nm f
             (x0 :: .arr (np_array (.seq t)) :: rest) none none)
    ∧ (input_filter_wrap nm f (.seq s :: .arr ya :: rest) none none
       = some (.ok (f (.arr (np_array (.seq s)) :: .arr ya :: rest)
                      none none)))
    ∧ (input_filter_wrap nm f [] (some (.seq s)) (some (.arr ya))
       = some (.ok (f [] (some (.arr (np_array (.seq s))))
                      (some (.arr ya))))) := by
  rcases List.mem_append.mp hnm with h | h
  · refine ⟨?_, ?_, ?_, ?_, ?_, ?_⟩
    · rw [wrap_of_no_y nm h, wrap_of_no_y nm h, repl_x_positional]
    · rw [wrap_of_no_y nm h, wrap_of_no_y nm h, repl_x_keyword]
    · rw [wrap_of_no_y nm h, wrap_of_no_y nm h, repl_y_keyword]
    · intro hy
      have h1 : nm = "predict" ∨ nm = "get_activations" ∨
          nm = "class_gradient" := by simpa [replacement_list_no_y] using h
      rcases h1 with rfl | rfl | rfl <;> exact absurd hy (by decide)
    · rw [wrap_of_no_y nm h, repl_success_positional]
    · rw [wrap_of_no_y nm h, repl_success_keyword]
  · refine ⟨?_, ?_, ?_, ?_, ?_, ?_⟩
    · rw [wrap_of_has_y nm h, wrap_of_has_y nm h, repl_x_positional]
    · rw [wrap_of_has_y nm h, wrap_of_has_y nm h, repl_x_keyword]
    · rw [wrap_of_has_y nm h, wrap_of_has_y nm h, repl_y_keyword]
    · intro _
      rw [wrap_of_has_y nm h, wrap_of_has_y nm h, repl_y_positional]
    · rw [wrap_of_has_y nm h, repl_success_positional]
    · rw [wrap_of_has_y nm h, repl_success_keyword]

/-- C5 witness: the `predict` entry point at a concrete nested-sequence
input, with the wrapped method returning its received arguments. -/
theorem designated_entry_points_coerce_inputs_witness :
    ("predict" ∈ designatedSet)
    ∧ ((input_filter_wrap "predict" (fun a kx ky => (a, kx, ky))
          (.seq [[1, 0]] :: []) none none
        = input_filter_wrap "predict" (fun a kx ky => (a, kx, ky))
          (.arr (np_array (.seq [[1, 0]])) :: []) none none)
      ∧ (input_filter_wrap "predict" (fun a kx ky => (a, kx, ky))
          [] (some (.seq [[1, 0]])) none
        = input_filter_wrap "predict" (fun a kx ky => (a, kx, ky))
          [] (some (.arr (np_array (.seq [[1, 0]])))) none)
      ∧ (input_filter_wrap "predict" (fun a kx ky => (a, kx, ky))
          [] none (some (.seq [[2]]))
        = input_filter_wrap "predict" (fun a kx ky => (a, kx, ky))
          [] none (some (.arr (np_array (.seq [[2]])))))
      ∧ ("predict" ∈ replacement_list_has_y →
         input_filter_wrap "predict" (fun a kx ky => (a, kx, ky))
            (.arr ⟨.float32, [[7]]⟩ :: .seq [[2]] :: []) none none
          = input_filter_wrap "predict" (fun a kx ky => (a, kx, ky))
            (.arr ⟨.float32, [[7]]⟩ :: .arr (np_array (.seq [[2]])) :: [])
            none none)
      ∧ (input_filter_wrap "predict" (fun a kx ky => (a, kx, ky))
          (.seq [[1, 0]] :: .arr ⟨.float32, [[3]]⟩ :: []) none none
        = some (.ok ((fun a kx ky => (a, kx, ky))
            (.arr (np_array (.seq [[1, 0]])) :: .arr ⟨.float32, [[3]]⟩ :: [])
            none none)))
      ∧ (input_filter_wrap "predict" (fun a kx ky => (a, kx, ky))
          [] (some (.seq [[1, 0]])) (some (.arr ⟨.float32, [[3]]⟩))
        = some (.ok ((fun a kx ky => (a, kx, ky))
            [] (some (.arr (np_array (.seq [[1, 0]]))))
            (some (.arr ⟨.float32, [[3]]⟩)))))) :=
  ⟨by decide,
   designated_entry_points_coerce_inputs "predict" (fun a kx ky => (a, kx, ky))
     [[1, 0]] [[2]] (.arr ⟨.float32, [[7]]⟩) [] []
     none none ⟨.float32, [[3]]⟩ (by decide)⟩

/-! ## Postprocessing: copy semantics -/

theorem getD_set_of_ne {α : Type} (l : List α) (m : ℕ) (v : α) :
    ∀ (n : ℕ) (d : α), n ≠ m → (l.set m v).getD n d = l.getD n d := by
  induction l generalizing m with
  | nil => intro n d _; rfl
  | cons a t ih =>
    intro n d h
    cases m with
    | zero =>
      cases n with
      | zero => exact absurd rfl h
      | succ n1 => rfl
    | succ m1 =>
      cases n with
      | zero => rfl
      | succ n1 =>
        simp only [List.set, List.getD_cons_succ]
        exact ih m1 n1 d (fun hc => h (congrArg Nat.succ hc))

theorem applyPostLoop_getD_preserved (ds : List Postprocessor) (fit : Bool) :
    ∀ (store : List (List (List ℚ))) (cur i : ℕ), i < cur →
      cur < store.length →
      ((applyPostLoop ds fit store cur).1.1).getD i []
        = store.getD i [] := by
  induction ds with
  | nil => intro store cur i _ _; rfl
  | cons d rest ih =>
    intro store cur i hi hc
    by_cases h : (if fit then d.apply_fit else d.apply_predict) = true
    · simp only [applyPostLoop, h, if_true]
      have hlen : (store.set cur (d.run (store.getD cur [])).1).length
          = store.length := List.length_set store cur _
      rw [ih (store.set cur (d.run (store.getD cur [])).1
              ++ [(d.run (store.getD cur [])).2]) store.length i
            (Nat.lt_trans hi hc)
            (by rw [List.length_append, hlen]; simp)]
      rw [List.getD_append _ _ _ _ (by rw [hlen]; exact Nat.lt_trans hi hc)]
      exact getD_set_of_ne _ _ _ _ _ (Nat.ne_of_lt hi)
    · simp only [applyPostLoop, h, if_false]
      exact ih store cur i hi hc

theorem applyPostLoop_trace (ds : List Postprocessor) (fit : Bool) :
    ∀ (store : List (List (List ℚ))) (cur : ℕ),
      (applyPostLoop ds fit store cur).2
        = ds.filter (fun d => if fit then d.apply_fit else d.apply_predict) := by
  induction ds with
  | nil => intro store cur; rfl
  | cons d rest ih =>
    intro store cur
    by_cases h : (if fit then d.apply_fit else d.apply_predict) = true
    · simp [applyPostLoop, h, List.filter_cons, ih]
    · simp [applyPostLoop, h, List.filter_cons, ih]

/-- C7: `_apply_postprocessing` operates on `preds.copy()`: after the call
the caller's array is unchanged, even though the applied defences may
mutate the array they are handed; and the defences applied are exactly the
postprocessing defences in list order whose flag matches the mode. -/
theorem postprocessing_operates_on_copy (cls : ClassifierState)
    (store : List (List (List ℚ))) (preds : ℕ) (fit : Bool)
    (h : preds < store.length) :
    (((cls.apply_postprocessing store preds fit).1.1).getD preds []
        = store.getD preds [])
    ∧ ((cls.apply_postprocessing store preds fit).2
        = (cls.postprocessing_defences.getD []).filter
            (fun d => if fit then d.apply_fit else d.apply_predict)) := by
  cases hd : cls.postprocessing_defences with
  | none =>
    constructor
    · simp only [ClassifierState.apply_postprocessing, hd]
      exact List.getD_append _ _ _ _ h
    · simp [ClassifierState.apply_postprocessing, hd]
  | some ds =>
    constructor
    · simp only [ClassifierState.apply_postprocessing, hd]
      rw [applyPostLoop_getD_preserved ds fit
            (store ++ [store.getD preds []]) store.length preds h
            (by simp)]
      exact List.getD_append _ _ _ _ h
    · simp only [ClassifierState.apply_postprocessing, hd, Option.getD_some]
      exact applyPostLoop_trace ds fit _ _

/-- C7 witness: one mutating predict-mode defence over a one-cell store;
the caller's cell still holds `[[1, 2]]` afterwards. -/
theorem postprocessing_operates_on_copy_witness :
    (0 < storePost.length)
    ∧ ((((clsPost.apply_postprocessing storePost 0 false).1.1).getD 0 []
          = storePost.getD 0 [])
      ∧ ((clsPost.apply_postprocessing storePost 0 false).2
          = (clsPost.postprocessing_defences.getD []).filter
              (fun d => if false then d.apply_fit else d.apply_predict))) :=
  ⟨by decide,
   postprocessing_operates_on_copy clsPost storePost 0 false (by decide)⟩

/-! ## fit_generator -/

theorem genStateAfter_add {σ : Type} (gen : DataGenerator σ) (s : σ)
    (m : ℕ) : ∀ n, genStateAfter gen s (m + n)
      = genStateAfter gen (genStateAfter gen s m) n := by
  intro n
  induction n with
  | zero => rfl
  | succ k ih =>
    rw [Nat.add_succ]
    show (gen.get_batch (genStateAfter gen s (m + k))).2
      = (gen.get_batch (genStateAfter gen (genStateAfter gen s m) k)).2
    rw [ih]

theorem genStateAfter_succ_shift {σ : Type} (gen : DataGenerator σ) (s : σ)
    (i : ℕ) : genStateAfter gen s (i + 1)
      = genStateAfter gen (gen.get_batch s).2 i := by
  have h := genStateAfter_add gen s 1 i
  rw [Nat.add_comm 1 i] at h
  exact h

theorem batchesFrom_succ_shift {σ : Type} (gen : DataGenerator σ) (s : σ)
    (k : ℕ) : batchesFrom gen s (k + 1)
      = (gen.get_batch s).1 :: batchesFrom gen (gen.get_batch s).2 k := by
  unfold batchesFrom
  rw [List.range_succ_eq_map, List.map_cons, List.map_map]
  congr 1
  apply List.map_congr_left
  intro i _
  simp only [Function.comp_apply]
  rw [show Nat.succ i = i + 1 from rfl, genStateAfter_succ_shift]

theorem batchesFrom_add {σ : Type} (gen : DataGenerator σ) (s : σ)
    (m n : ℕ) : batchesFrom gen s (m + n)
      = batchesFrom gen s m
        ++ batchesFrom gen (genStateAfter gen s m) n := by
  unfold batchesFrom
  rw [List.range_add, List.map_append, List.map_map]
  congr 1
  apply List.map_congr_left
  intro i _
  simp only [Function.comp_apply]
  rw [genStateAfter_add]

theorem fitGenInner_spec {σ : Type} (cls : ClassifierState)
    (gen : DataGenerator σ) :
    ∀ (k : ℕ) (s : σ) (tr : List FitCall) (s1 : σ),
      fitGenInner cls gen k s = .ok (tr, s1) →
      tr.length = k
      ∧ s1 = genStateAfter gen s k
      ∧ (batchesFrom gen s k).map
          (fun b => (cls.apply_preprocessing b.1 b.2 true).toOption)
        = tr.map (fun c => some (c.x, c.y))
      ∧ tr.all (fun c => c.nb_epochs == 1
          && c.batch_size == gen.batch_size) = true := by
  intro k
  induction k with
  | zero =>
    intro s tr s1 h
    simp only [fitGenInner, Except.ok.injEq, Prod.mk.injEq] at h
    obtain ⟨h1, h2⟩ := h
    subst h1; subst h2
    exact ⟨rfl, rfl, rfl, rfl⟩
  | succ k1 ih =>
    intro s tr s1 h
    simp only [fitGenInner] at h
    rcases hp : cls.apply_preprocessing (gen.get_batch s).1.1
        (gen.get_batch s).1.2 true with e | xy <;> rw [hp] at h
    · exact absurd h (by simp)
    · rcases hr : fitGenInner cls gen k1 (gen.get_batch s).2
          with e | ⟨tr1, s2⟩ <;> rw [hr] at h
      · exact absurd h (by simp)
      · simp only [Except.ok.injEq, Prod.mk.injEq] at h
        obtain ⟨h1, h2⟩ := h
        subst h1; subst h2
        obtain ⟨ihl, ihs, ihb, iha⟩ := ih (gen.get_batch s).2 tr1 s2 hr
        refine ⟨by simp [ihl], ?_, ?_, ?_⟩
        · rw [genStateAfter_succ_shift]; exact ihs
        · rw [batchesFrom_succ_shift, List.map_cons, List.map_cons, hp, ihb]
          rfl
        · simp [List.all_cons, iha]


theorem fitGenOuter_spec {σ : Type} (cls : ClassifierState)
    (gen : DataGenerator σ) :
    ∀ (e : ℕ) (k : ℕ) (s : σ) (tr : List FitCall) (s1 : σ),
      fitGenOuter cls gen e k s = .ok (tr, s1) →
      tr.length = e * k
      ∧ s1 = genStateAfter gen s (e * k)
      ∧ (batchesFrom gen s (e * k)).map
          (fun b => (cls.apply_preprocessing b.1 b.2 true).toOption)
        = tr.map (fun c => some (c.x, c.y))
      ∧ tr.all (fun c => c.nb_epochs == 1
          && c.batch_size == gen.batch_size) = true := by
  intro e
  induction e with
  | zero =>
    intro k s tr s1 h
    simp only [fitGenOuter, Except.ok.injEq, Prod.mk.injEq] at h
    obtain ⟨h1, h2⟩ := h
    subst h1; subst h2
    exact ⟨by simp, by simp [genStateAfter], by simp [batchesFrom], rfl⟩
  | succ e1 ih =>
    intro k s tr s1 h
    simp only [fitGenOuter] at h
    split at h
    · simp at h
    · rename_i tr1 s2 hi
      split at h
      · simp at h
      · rename_i tr2 s3 ho
        simp only [Except.ok.injEq, Prod.mk.injEq] at h
        obtain ⟨h1, h2⟩ := h
        subst h1; subst h2
        obtain ⟨al, as, ab, aa⟩ := fitGenInner_spec cls gen k s tr1 s2 hi
        obtain ⟨bl, bs, bb, ba⟩ := ih k s2 tr2 s3 ho
        have hm : (e1 + 1) * k = k + e1 * k := by ring
        subst as
        refine ⟨?_, ?_, ?_, ?_⟩
        · simp [al, bl, hm]
        · rw [hm, genStateAfter_add]; exact bs
        · rw [hm, batchesFrom_add, List.map_append, List.map_append, ab, bb]
        · simp [List.all_append, aa, ba]

/-- C6: whenever the default `fit_generator` completes on a generator and
epoch count, it has made exactly
`nb_epochs * floor(generator.size / generator.batch_size)` single-batch
`fit` calls; each carries `nb_epochs=1` and the generator's batch size,
the i-th call's data is the forward preprocessing (in fit mode) of the
i-th batch pulled via `get_batch`, and the generator has been advanced by
exactly that many `get_batch` calls. -/
theorem fit_generator_contract {σ : Type} (cls : ClassifierState)
    (gen : DataGenerator σ) (s0 : σ) (n : ℕ) (tr : List FitCall) (s1 : σ)
    (h : fit_generator cls gen s0 n = .ok (tr, s1)) :
    tr.length = n * (gen.size / gen.batch_size)
    ∧ tr.all (fun c => c.nb_epochs == 1
        && c.batch_size == gen.batch_size) = true
    ∧ (batchesFrom gen s0 (n * (gen.size / gen.batch_size))).map
        (fun b => (cls.apply_preprocessing b.1 b.2 true).toOption)
      = tr.map (fun c => some (c.x, c.y))
    ∧ s1 = genStateAfter gen s0 (n * (gen.size / gen.batch_size)) := by
  obtain ⟨hl, hs, hb, ha⟩ :=
    fitGenOuter_spec cls gen n (gen.size / gen.batch_size) s0 tr s1 h
  exact ⟨hl, ha, hb, hs⟩

/-- C6 witness: 2 epochs over a 5-sample generator with batch size 2 make
4 single-batch fit calls. -/
theorem fit_generator_contract_witness :
    (fit_generator clsPlain genCounting 0 2 = .ok (trCounting, 4))
    ∧ (trCounting.length = 2 * (genCounting.size / genCounting.batch_size)
      ∧ trCounting.all (fun c => c.nb_epochs == 1
          && c.batch_size == genCounting.batch_size) = true
      ∧ (batchesFrom genCounting 0
            (2 * (genCounting.size / genCounting.batch_size))).map
          (fun b => (clsPlain.apply_preprocessing b.1 b.2 true).toOption)
        = trCounting.map (fun c => some (c.x, c.y))
      ∧ (4 : ℕ) = genStateAfter genCounting 0
          (2 * (genCounting.size / genCounting.batch_size))) :=
  ⟨rfl, fit_generator_contract clsPlain genCounting 0 2 trCounting 4 rfl⟩

/-- C8 counterexample: reading `layer_names` on the base neural-network
contract does not return a result — the base property raises. -/
theorem layer_names_base_does_not_return :
    exOk ClassifierNeuralNetwork.layer_names = false := rfl

/-- C8 (amended): the base `layer_names` property raises
`NotImplementedError`; the contract's docstring merely disclaims
correctness guarantees on order and completeness, and only concrete
implementations may return an empty or partial result instead. -/
theorem layer_names_base_raises_not_implemented :
    ClassifierNeuralNetwork.layer_names
      = .error PyError.notImplementedError := rfl

end ART
